import Mathlib

/-!
Verification of the core ingestion pipeline of the dicom-kivy-app repository
(`src/main.py`): file-type detection (`is_dicom_file_ultrafast`,
`is_dicom_video`), folder scanning (`scan_folder_ultrafast`), the
asynchronous loader (`UltraFastDICOMLoader`), series bucketing/sorting
(`_ultra_load_worker`), and pixel normalization (`load_video_file` /
`show_image_item`).

The shallow embedding models the file system as a total map from paths to
file entries whose fallible facets (`os.path.getsize`, `open`,
`pydicom.dcmread`, pixel decode) are `Option`-valued: `none` means the
corresponding Python call raises.  Numeric pixel samples and window hints
are rationals; `astype(np.uint8)` on the in-range values produced here is
truncation, i.e. `Rat.floor` of a non-negative value.  Python's stable
`list.sort` is modelled by `List.insertionSort`, which is extensionally
equal to any stable sort by the same key.
-/

namespace DicomApp

/-- Character-level ASCII lowercasing, modelling Python's `str.lower()` on
the ASCII file names and extensions the scanner handles. -/
def lowerChar (c : Char) : Char :=
  if 'A' ≤ c ∧ c ≤ 'Z' then Char.ofNat (c.toNat + 32) else c

/-- String lowercasing via `lowerChar`, modelling `str.lower()`. -/
def lowerStr (s : String) : String := ⟨s.data.map lowerChar⟩

/-- Decidable substring test on character lists, modelling Python's
`needle in haystack` on strings. -/
def isInfixOfB (n : List Char) : List Char → Bool
  | [] => n.isEmpty
  | c :: cs => n.isPrefixOf (c :: cs) || isInfixOfB n cs

/-- Substring test on strings (Python `in`). -/
def strContains (hay needle : String) : Bool := isInfixOfB needle.data hay.data

/-- Fuel-driven worker for `chunks`; the fuel only needs to dominate the
list length, so the recursion is structural (and kernel-reducible). -/
def chunksF (n : Nat) : Nat → List α → List (List α)
  | _, [] => []
  | 0, x :: xs => [x :: xs]
  | fuel + 1, x :: xs => (x :: xs.take (n - 1)) :: chunksF n fuel (xs.drop (n - 1))

/-- Split a list into consecutive chunks of size `n` (last chunk may be
shorter), modelling the slicing loop `for i in range(0, len(l), n)` with
slices `l[i:i+n]` (`main.py:587`).  For `n = 0` (unreachable: the source
guarantees `n ≥ 1`) this produces singleton chunks. -/
def chunks (n : Nat) (l : List α) : List (List α) := chunksF n l.length l

/-- Minimum of a sample list (`np.min`); `0` on the empty list, which the
source never queries. -/
def listMin : List ℚ → ℚ
  | [] => 0
  | x :: xs => xs.foldl min x

/-- Maximum of a sample list (`np.max`); `0` on the empty list. -/
def listMax : List ℚ → ℚ
  | [] => 0
  | x :: xs => xs.foldl max x

/-- Python `int()` truncation toward zero of a rational. -/
def ratTrunc (q : ℚ) : ℤ := if q < 0 then Rat.ceil q else Rat.floor q

/-- Zero-padded fixed-width-3 integer formatting, modelling the Python
format string `f"{n:03d}"` (sign counts toward the width). -/
def fmt3 (n : ℤ) : String :=
  let mag := toString n.natAbs
  let width := mag.length + (if n < 0 then 1 else 0)
  let pad := String.mk (List.replicate (3 - width) '0')
  (if n < 0 then "-" else "") ++ pad ++ mag

/-- Little-endian 16-bit read of two bytes at offset `i` of a byte list,
modelling `int.from_bytes(b[i:i+2], byteorder='little')`. -/
def le16 (l : List Nat) (i : Nat) : Nat := l.getD i 0 + 256 * l.getD (i + 1) 0

/-- File-system path, modelling the only two facets of a Python path string
the core inspects: `os.path.splitext(p)[1]` (the extension, dot included)
and `os.path.basename(p)` (= stem ++ extension). -/
structure Path where
  stem : String
  ext : String
deriving DecidableEq

/-- Basename of a path (`os.path.basename`). -/
def Path.basename (p : Path) : String := p.stem ++ p.ext

/-- Facets of a loosely-typed Python attribute value as used by the source:
its truthiness (`if v:`), the result of `int(v)` (`none` = raises), and its
`str(v)` rendering. -/
structure PyNum where
  truthy : Bool
  int? : Option ℤ
  text : String
deriving DecidableEq

/-- PyNum for an honest integer value. -/
def pyInt (n : ℤ) : PyNum := ⟨n ≠ 0, some n, toString n⟩

/-- SeriesNumber attribute value: either a Python `int`/`float` (the
`isinstance(series_number, (int, float))` branch) or some other value. -/
inductive SNum where
  | numeric (q : ℚ)
  | nonNumeric (s : String)
deriving DecidableEq

/-- Header attributes read through `getattr(dcm, ..., default)`; `none`
models an absent attribute, so each call site applies its own default. -/
structure DicomMeta where
  transferSyntaxUID : Option String := none
  sopClassUID : Option String := none
  numberOfFrames : Option PyNum := none
  frameTime : Option PyNum := none
  frameIncrementPointerPresent : Bool := false
  modality : Option String := none
  seriesInstanceUID : Option String := none
  seriesDescription : Option String := none
  seriesNumber : Option SNum := none
  instanceNumber : Option PyNum := none
  patientName : Option String := none
  patientID : Option String := none
  studyDescription : Option String := none
  studyDate : Option String := none
deriving DecidableEq

/-- What the file system and pydicom report for one path.  `none` in a
field means the corresponding Python call raises for this path. -/
structure FileEntry where
  size? : Option Nat := none
  content? : Option (List Nat) := none
  meta : Option DicomMeta := none
  pixelShape : Option (List Nat) := none
deriving DecidableEq

/-- The (read-only) file system: every path maps to what the OS and pydicom
report for it.  A wholly nonexistent file is an entry with all fields
`none`. -/
def FS : Type := Path → FileEntry

/-- Extension whitelist of `is_dicom_file_ultrafast` (`main.py:476`). -/
def dicomExts : List String := [".dcm", ".dicom", ".dic", ".ima"]

/-- Group 0x0008 element whitelist (`main.py:509`). -/
def group8Elements : List Nat := [0x0000, 0x0001, 0x0005, 0x0008, 0x0016, 0x0018]

/-- Group 0x0002 element whitelist (`main.py:510`). -/
def group2Elements : List Nat := [0x0000, 0x0001, 0x0002, 0x0003, 0x0010, 0x0012]

/-- Body of `is_dicom_file_ultrafast` (`main.py:472-515`) with the
outermost `try` removed: `.error` marks the one place an exception can
escape the inner handlers (the `open`/read block). The inner `try` blocks
around `os.path.getsize` and `pydicom.dcmread` are translated by their
handlers (`return False` resp. fall-through). -/
def is_dicom_file_ultrafastE (fs : FS) (p : Path) : Except String Bool :=
  let ext := lowerStr p.ext
  if dicomExts.contains ext then .ok true
  else
    match (fs p).size? with
    | none => .ok false
    | some size =>
      if size < 128 then .ok false
      else if size > 500 * 1024 * 1024 then .ok false
      else if (fs p).meta.isSome then .ok true
      else
        match (fs p).content? with
        | none => .error "open failed"
        | some bytes =>
          let dicm := (bytes.drop 128).take 4
          if dicm = [0x44, 0x49, 0x43, 0x4D] then .ok true
          else
            let header := bytes.take 16
            if header.length < 8 then .ok false
            else
              let group := le16 header 0
              let element := le16 header 2
              if (group = 0x0008 ∧ group8Elements.contains element)
                  ∨ (group = 0x0002 ∧ group2Elements.contains element) then .ok true
              else .ok false

/-- Detector `is_dicom_file_ultrafast` (`main.py:472-517`): the body with
the outermost `except Exception: return False` handler. -/
def is_dicom_file_ultrafast (fs : FS) (p : Path) : Bool :=
  match is_dicom_file_ultrafastE fs p with
  | .ok b => b
  | .error _ => false

/-- Video transfer-syntax whitelist (`main.py:610-618`). -/
def videoSyntaxes : List String :=
  ["1.2.840.10008.1.2.4.100", "1.2.840.10008.1.2.4.101", "1.2.840.10008.1.2.4.102",
   "1.2.840.10008.1.2.4.103", "1.2.840.10008.1.2.4.104", "1.2.840.10008.1.2.4.105",
   "1.2.840.10008.1.2.4.106"]

/-- Video SOP-class whitelist (`main.py:625-633`). -/
def videoSopClasses : List String :=
  ["1.2.840.10008.5.1.4.1.1.77.1.4.1", "1.2.840.10008.5.1.4.1.1.77.1.4",
   "1.2.840.10008.5.1.4.1.1.77.1.1.1", "1.2.840.10008.5.1.4.1.1.77.1.2.1",
   "1.2.840.10008.5.1.4.1.1.77.1.5.1", "1.2.840.10008.5.1.4.1.1.77.1.5.2",
   "1.2.840.10008.5.1.4.1.1.77.1.5.4"]

/-- Video modality whitelist (`main.py:654`). -/
def videoModalities : List String := ["XC", "VL", "ES", "OP", "US"]

/-- Truthiness of an optional attribute value (`getattr` default `None`). -/
def truthyOpt : Option PyNum → Bool
  | none => false
  | some v => v.truthy

/-- Body of `is_dicom_video` (`main.py:603-663`) with the outermost `try`
removed: the initial `pydicom.dcmread` is the only operation whose
exception reaches the outer handler; the two inner `try` blocks
(`int(frames)` and the pixel decode) swallow their failures. -/
def is_dicom_videoE (fs : FS) (p : Path) : Except String Bool :=
  match (fs p).meta with
  | none => .error "dcmread failed"
  | some dcm =>
    let transfer_syntax := dcm.transferSyntaxUID.getD ""
    if videoSyntaxes.contains transfer_syntax then .ok true
    else
      let sop_class := dcm.sopClassUID.getD ""
      if videoSopClasses.contains sop_class then .ok true
      else
        let framesBranch :=
          match dcm.numberOfFrames with
          | none => false
          | some frames =>
            frames.truthy &&
              match frames.int? with
              | none => false
              | some frame_count =>
                decide (1 < frame_count) &&
                  (truthyOpt dcm.frameTime || dcm.frameIncrementPointerPresent
                    || decide (10 < frame_count))
        if framesBranch then .ok true
        else
          let modality := dcm.modality.getD ""
          if videoModalities.contains modality then
            match (fs p).pixelShape with
            | none => .ok false
            | some shape =>
              match shape with
              | [] => .ok false
              | s0 :: _ => .ok (decide (3 ≤ shape.length) && decide (1 < s0))
          else .ok false

/-- Detector `is_dicom_video` (`main.py:603-666`): the body with the
outermost `except Exception: return False` handler. -/
def is_dicom_video (fs : FS) (p : Path) : Bool :=
  match is_dicom_videoE fs p with
  | .ok b => b
  | .error _ => false

/-- Extension blacklist `obvious_non_dicom` (`main.py:555-559`). -/
def obviousNonDicom : List String :=
  [".txt", ".log", ".xml", ".html", ".css", ".js", ".py",
   ".exe", ".dll", ".zip", ".rar", ".pdf", ".doc", ".docx",
   ".xls", ".xlsx", ".ppt", ".pptx", ".mp3", ".avi",
   ".mov", ".wav", ".jpg", ".jpeg", ".png", ".gif", ".bmp",
   ".tiff", ".svg", ".ico", ".ini", ".cfg", ".json"]

/-- Basename keywords `medical_indicators` (`main.py:567`). -/
def medicalIndicators : List String :=
  ["dicom", "dcm", "img", "image", "scan", "slice", "frame", "video"]

/-- Partition loop of `scan_folder_ultrafast` (`main.py:550-574`):
classifies every listed file into certain records (`definitely_dicom`) or
probe candidates (`potential_dicom`, keyword hits front-loaded via
`insert(0, ...)`); everything else is dropped. -/
def scanPartition (files : List Path) : List Path × List Path :=
  files.foldl
    (fun acc p =>
      let ext := lowerStr p.ext
      let basename := lowerStr p.basename
      if obviousNonDicom.contains ext then acc
      else if dicomExts.contains ext then (acc.1 ++ [p], acc.2)
      else if ext = "" ∨ (ext.length ≤ 4 ∧ ¬ obviousNonDicom.contains ext) then
        if medicalIndicators.any (fun ind => strContains basename ind) then
          (acc.1, p :: acc.2)
        else (acc.1, acc.2 ++ [p])
      else acc)
    ([], [])

/-- Status string emitted after each probe batch (`main.py:597`). -/
def batchStatus (processed total found : Nat) : String :=
  "Scanning: " ++ toString processed ++ "/" ++ toString total ++
    " files, found " ++ toString found ++ " DICOM files"

/-- Status string emitted before probing starts (`main.py:580`). -/
def foundStatus (definite potential : Nat) : String :=
  "Found " ++ toString definite ++ " definite + " ++ toString potential ++
    " potential DICOM files"

/-- Batch loop of `scan_folder_ultrafast` (`main.py:587-599`): probes each
batch with `is_dicom_file_ultrafast`, then reports
`(processed / total_candidates) * 95 + 5` percent.  Returns the found
files, the final `processed` count and the progress calls in order. -/
def scanLoop (fs : FS) (total : Nat) :
    List (List Path) → List Path → Nat → List Path × Nat × List (ℚ × String)
  | [], found, processed => (found, processed, [])
  | batch :: rest, found, processed =>
    let found' := found ++ batch.filter (fun p => is_dicom_file_ultrafast fs p)
    let processed' := processed + batch.length
    let call : ℚ × String :=
      (((processed' : ℚ) / (total : ℚ)) * 95 + 5,
        batchStatus processed' total found'.length)
    let (f, pr, calls) := scanLoop fs total rest found' processed'
    (f, pr, call :: calls)

/-- Scanner `scan_folder_ultrafast` (`main.py:519-601`).  The directory
walk itself (`os.walk` / `os.listdir`, an external OS service) is modelled
by its outcome `listing`: `.error e` when the walk raises (the `except`
at `main.py:539` reports 0 percent and returns `[]`), `.ok files`
otherwise.  Returns the detected files and the progress calls that a
supplied callback would receive, in order. -/
def scan_folder_ultrafast (fs : FS) (listing : Except String (List Path)) :
    List Path × List (ℚ × String) :=
  match listing with
  | .error e => ([], [((0 : ℚ), "Error accessing directory: " ++ e)])
  | .ok all_files =>
    if all_files.isEmpty then ([], [])
    else
      let (definitely, potential) := scanPartition all_files
      let total := definitely.length + potential.length
      let initialCall : ℚ × String :=
        ((5 : ℚ), foundStatus definitely.length potential.length)
      let batch_size := max 1 (potential.length / 50)
      let (found, _, calls) :=
        scanLoop fs total (chunks batch_size potential) definitely definitely.length
      (found, initialCall :: calls)

/-- Clamp a sample into `[lo, hi]`, modelling `np.clip(x, lo, hi)` for
`lo ≤ hi`. -/
def clipQ (x lo hi : ℚ) : ℚ := min hi (max x lo)

/-- Pixel normalization shared by `load_video_file` (`main.py:274-295`) and
`show_image_item` (`main.py:1667-1690`): a non-`uint8` frame is windowed
when both `WindowCenter` and `WindowWidth` are present (list-valued hints
already reduced to their first element), min-max stretched otherwise, and
a constant frame becomes uniform mid-gray 128 (`np.full_like`).  The
`// 2` of the source is floor division, hence `Rat.floor (width / 2)`;
`astype(np.uint8)` of the in-range scaled values is truncation toward
zero, which on these non-negative values is `Rat.floor`.  (For
`width < 2` the source divides by zero in numpy; the model's `ℚ`
convention `x / 0 = 0` stands in for that undefined case.) -/
def normalizeFrame (isUint8 : Bool) (wc ww : Option ℚ) (frame : List ℚ) : List ℚ :=
  if isUint8 then frame
  else
    let frame_min := listMin frame
    let frame_max := listMax frame
    if frame_min < frame_max then
      match wc, ww with
      | some center, some width =>
        let img_min := center - (Rat.floor (width / 2) : ℚ)
        let img_max := center + (Rat.floor (width / 2) : ℚ)
        frame.map (fun x =>
          ((Rat.floor ((clipQ x img_min img_max - img_min) / (img_max - img_min) * 255)) : ℚ))
      | _, _ =>
        frame.map (fun x =>
          ((Rat.floor ((x - frame_min) / (frame_max - frame_min) * 255)) : ℚ))
    else
      List.replicate frame.length 128

/-- Windowed normalization as worded by the specification (clip interval
`[center - width/2, center + width/2]` with exact halving), kept separate
from `normalizeFrame` so the two can be compared. -/
def specWindowNormalize (center width : ℚ) (frame : List ℚ) : List ℚ :=
  let lo := center - width / 2
  let hi := center + width / 2
  frame.map (fun x => ((Rat.floor ((clipQ x lo hi - lo) / (hi - lo) * 255)) : ℚ))

/-- Per-series record built at `main.py:757-768`. -/
structure SeriesInfo where
  files : List Path
  description : String
  modality : String
  patient_name : String
  patient_id : String
  study_description : String
  study_date : String
  series_uid : String
  is_video : Bool
  frame_count : PyNum
deriving DecidableEq

/-- The `series_dict` of `_ultra_load_worker`, as an insertion-ordered
association list (Python dicts preserve insertion order). -/
abbrev SeriesDict := List (String × SeriesInfo)

/-- Queue messages of `UltraFastDICOMLoader` (`('progress', ...)`,
`('scan_complete', files)`, `('complete', series_dict)`,
`('error', text)`). -/
inductive Msg where
  | progress (percent : ℚ) (status : String)
  | scanComplete (files : List Path)
  | complete (series : SeriesDict)
  | error (text : String)
deriving DecidableEq

/-- Rendering of `NumberOfFrames` inside the video indicator
(`getattr(dcm, 'NumberOfFrames', '?')` interpolated into an f-string). -/
def framesText (dcm : DicomMeta) : String :=
  match dcm.numberOfFrames with
  | some f => f.text
  | none => "?"

/-- Series key computed at `main.py:744-754`: `f"{int(n):03d} - {desc}
({modality}){video_indicator}"` when `SeriesNumber` is an `int`/`float`,
fixed prefix `"000"` otherwise (also when the attribute is absent, since
the `getattr` default is the non-numeric string `'0'`). -/
def seriesKeyOf (dcm : DicomMeta) (is_video : Bool) : String :=
  let series_desc := dcm.seriesDescription.getD "Unnamed Series"
  let modality := dcm.modality.getD "Unknown"
  let video_indicator :=
    if is_video then " [VIDEO-" ++ framesText dcm ++ "F]" else ""
  let numPart :=
    match dcm.seriesNumber with
    | some (.numeric q) => fmt3 (ratTrunc q)
    | _ => "000"
  numPart ++ " - " ++ series_desc ++ " (" ++ modality ++ ")" ++ video_indicator

/-- Fresh bucket payload (`main.py:757-768`).  Python's
`f'Unknown_{hash(file_path)}'` fallback for the series UID is modelled
with the path itself standing in for its hash. -/
def mkSeriesInfo (p : Path) (dcm : DicomMeta) (is_video : Bool) : SeriesInfo :=
  { files := []
    description := dcm.seriesDescription.getD "Unnamed Series"
    modality := dcm.modality.getD "Unknown"
    patient_name := dcm.patientName.getD "Unknown"
    patient_id := dcm.patientID.getD "Unknown"
    study_description := dcm.studyDescription.getD "Unknown Study"
    study_date := dcm.studyDate.getD "Unknown"
    series_uid := dcm.seriesInstanceUID.getD ("Unknown_" ++ p.stem ++ p.ext)
    is_video := is_video
    frame_count := if is_video then dcm.numberOfFrames.getD (pyInt 1) else pyInt 1 }

/-- Bucket lookup (`series_key not in series_dict`). -/
def dictLookup (d : SeriesDict) (k : String) : Option SeriesInfo :=
  (d.find? (fun kv => kv.1 = k)).map (fun kv => kv.2)

/-- Append one file to the bucket with key `k`
(`series_dict[series_key]['files'].append(file_path)`). -/
def dictAppendFile (d : SeriesDict) (k : String) (p : Path) : SeriesDict :=
  d.map (fun kv =>
    if kv.1 = k then (kv.1, { kv.2 with files := kv.2.files ++ [p] }) else kv)

/-- Instance-number sort key `_get_instance_number` (`main.py:822-827`):
re-reads the file; a failed read, an absent `InstanceNumber` (the
`getattr` default `0`) and an unparsable one all yield `0`. -/
def instNum (fs : FS) (p : Path) : ℤ :=
  match (fs p).meta with
  | none => 0
  | some dcm =>
    match dcm.instanceNumber with
    | none => 0
    | some v => v.int?.getD 0

/-- Sorting pass at `main.py:783-788`: every bucket's file list is sorted
by `_get_instance_number`.  Python's stable `list.sort` is modelled by
`List.insertionSort` (extensionally equal to any stable sort under the
same key). -/
def sortDict (fs : FS) (d : SeriesDict) : SeriesDict :=
  d.map (fun kv =>
    (kv.1, { kv.2 with
      files := List.insertionSort (fun a b => instNum fs a ≤ instNum fs b) kv.2.files }))

/-- Progress status of the load worker (`main.py:775`). -/
def loadStatus (done total : Nat) : String :=
  "⚡ Processing: " ++ toString done ++ "/" ++ toString total ++ " files"

/-- Main loop of `_ultra_load_worker` (`main.py:729-780`).  `flag i` is the
value the `i`-th top-of-loop read of `self.should_stop` returns (the flag
is read exactly once per iteration).  Returns the bucket dict, the
progress messages enqueued, the indices at which a metadata extraction
was started (the `pydicom.dcmread` attempt, successful or not), and the
index the next flag read will use. -/
def ultraLoadGo (fs : FS) (flag : Nat → Bool) (n : Nat) :
    List Path → Nat → SeriesDict → SeriesDict × List Msg × List Nat × Nat
  | [], i, acc => (acc, [], [], i)
  | p :: rest, i, acc =>
    if flag i then (acc, [], [], i + 1)
    else
      match (fs p).meta with
      | none =>
        -- extraction failed: except → continue, no message even for the last file
        let (d, ms, es, r) := ultraLoadGo fs flag n rest (i + 1) acc
        (d, ms, i :: es, r)
      | some dcm =>
        let is_video := is_dicom_video fs p
        let key := seriesKeyOf dcm is_video
        let acc' :=
          if (dictLookup acc key).isSome then acc
          else acc ++ [(key, mkSeriesInfo p dcm is_video)]
        let acc'' := dictAppendFile acc' key p
        let msgs :=
          if i % 3 = 0 ∨ i = n - 1 then
            [Msg.progress (((i : ℚ) + 1) / (n : ℚ) * 100) (loadStatus (i + 1) n)]
          else []
        let (d, ms, es, r) := ultraLoadGo fs flag n rest (i + 1) acc''
        (d, msgs ++ ms, i :: es, r)

/-- Load worker `_ultra_load_worker` (`main.py:722-802`): runs the loop,
then — unless the stop flag reads true at the post-loop check — sorts
every bucket and enqueues the terminal `('complete', series_dict)`
message.  Returns the full message sequence enqueued. -/
def ultra_load_worker (fs : FS) (flag : Nat → Bool) (files : List Path) : List Msg :=
  let n := files.length
  let (dict, msgs, _, r) := ultraLoadGo fs flag n files 0 []
  if flag r then msgs
  else msgs ++ [Msg.complete (sortDict fs dict)]

/-- Bucket dict built by an uninterrupted run of the load-worker loop,
before the sorting pass. -/
def loadDict (fs : FS) (files : List Path) : SeriesDict :=
  (ultraLoadGo fs (fun _ => false) files.length files 0 []).1

/-- Indices at which the load worker started a metadata extraction. -/
def loadExtractions (fs : FS) (flag : Nat → Bool) (files : List Path) : List Nat :=
  (ultraLoadGo fs flag files.length files 0 []).2.2.1

/-- Mutable fields of an `UltraFastDICOMLoader` instance touched by the
async entry points (`main.py:669-701`): the single-flight `running` flag,
the cooperative `should_stop` flag, and the message queue. -/
structure LoaderState where
  running : Bool
  shouldStop : Bool
  queue : List Msg
deriving DecidableEq

/-- Entry point `scan_folder_async` (`main.py:679-689`): a no-op while
`running` is set; otherwise sets `running`, clears `should_stop` and
spawns the scan worker.  The returned boolean reports whether a worker
thread was spawned. -/
def scan_folder_async (s : LoaderState) : LoaderState × Bool :=
  if s.running then (s, false)
  else ({ s with running := true, shouldStop := false }, true)

/-- Entry point `load_files_async` (`main.py:691-701`): same single-flight
guard as `scan_folder_async`, spawning the load worker instead. -/
def load_files_async (s : LoaderState) : LoaderState × Bool :=
  if s.running then (s, false)
  else ({ s with running := true, shouldStop := false }, true)

/-- Entry point `stop_loading` (`main.py:676-677`). -/
def stop_loading (s : LoaderState) : LoaderState := { s with shouldStop := true }

/-- Worker epilogue `self.running = False` (`main.py:720`, `main.py:802`). -/
def workerExit (s : LoaderState) : LoaderState := { s with running := false }

/-- Loader instance together with its number of live worker threads. -/
structure LoaderSys where
  st : LoaderState
  active : Nat
deriving DecidableEq

/-- Atomic transitions of one loader instance: the two async entry points
(called from the host's single UI thread, so each call is one step), a
`stop_loading` call, and a worker thread finishing. -/
inductive LoaderStep : LoaderSys → LoaderSys → Prop
  | scanCall (s : LoaderSys) :
      LoaderStep s ⟨(scan_folder_async s.st).1,
        s.active + (if (scan_folder_async s.st).2 then 1 else 0)⟩
  | loadCall (s : LoaderSys) :
      LoaderStep s ⟨(load_files_async s.st).1,
        s.active + (if (load_files_async s.st).2 then 1 else 0)⟩
  | stopCall (s : LoaderSys) : LoaderStep s ⟨stop_loading s.st, s.active⟩
  | finish (s : LoaderSys) (h : 0 < s.active) :
      LoaderStep s ⟨workerExit s.st, s.active - 1⟩

/-- Freshly constructed loader (`__init__`, `main.py:670-674`): not
running, not stopping, no worker. -/
def loaderInit : LoaderSys := ⟨⟨false, false, []⟩, 0⟩

/-- Observable events of the scan worker `_ultra_scan_worker`
(`main.py:703-720`): reads of `self.should_stop`, candidate probes
(`is_dicom_file_ultrafast` calls), and queue appends. -/
inductive SEvent where
  | flagRead (b : Bool)
  | probe (p : Path)
  | enq (m : Msg)
deriving DecidableEq

/-- Events of one `progress_update` callback invocation (`main.py:705-707`):
read the stop flag, enqueue a progress message only when it is unset.
`r` is the index of this flag read. -/
def cbTrace (flag : Nat → Bool) (r : Nat) (percent : ℚ) (status : String) : List SEvent :=
  SEvent.flagRead (flag r) ::
    (if flag r then [] else [SEvent.enq (Msg.progress percent status)])

/-- Terminal status string of the scan worker (`main.py:715`); the
wall-clock elapsed-time figure interpolated by the source is not
modellable and is omitted from the text. -/
def scanDoneStatus (found : Nat) : String :=
  "⚡ Ultra-fast scan: " ++ toString found ++ " DICOM files found"

/-- Post-scan completion block of the scan worker (`main.py:713-715`): one
flag read guards enqueueing both the `scan_complete` message and the
final 100-percent progress message. -/
def finishTrace (flag : Nat → Bool) (r : Nat) (files : List Path) : List SEvent :=
  SEvent.flagRead (flag r) ::
    (if flag r then []
     else [SEvent.enq (Msg.scanComplete files),
           SEvent.enq (Msg.progress 100 (scanDoneStatus files.length))])

/-- Batch loop of the scanner as run under the scan worker's callback:
like `scanLoop`, but recording probe, flag-read and enqueue events.
Returns the found files, the next flag-read index and the event trace. -/
def scanLoopTrace (fs : FS) (flag : Nat → Bool) (total : Nat) :
    List (List Path) → List Path → Nat → Nat → List Path × Nat × List SEvent
  | [], found, _, r => (found, r, [])
  | batch :: rest, found, processed, r =>
    let probes := batch.map SEvent.probe
    let found' := found ++ batch.filter (fun p => is_dicom_file_ultrafast fs p)
    let processed' := processed + batch.length
    let evs := cbTrace flag r (((processed' : ℚ) / (total : ℚ)) * 95 + 5)
      (batchStatus processed' total found'.length)
    let (f, r', tr) := scanLoopTrace fs flag total rest found' processed' (r + 1)
    (f, r', probes ++ evs ++ tr)

/-- Event trace of one scan-worker execution `_ultra_scan_worker`
(`main.py:703-718`): the scanner runs with `progress_update` as callback
(which consults the stop flag per call), every candidate probe is a
`probe` event, and the completion block runs afterwards.  `flag r` is the
value returned by the `r`-th read of `self.should_stop`. -/
def ultra_scan_workerTrace (fs : FS) (flag : Nat → Bool)
    (listing : Except String (List Path)) : List SEvent :=
  match listing with
  | .error e =>
    cbTrace flag 0 0 ("Error accessing directory: " ++ e) ++ finishTrace flag 1 []
  | .ok all_files =>
    if all_files.isEmpty then finishTrace flag 0 []
    else
      let (definitely, potential) := scanPartition all_files
      let total := definitely.length + potential.length
      let evs0 := cbTrace flag 0 5 (foundStatus definitely.length potential.length)
      let batch_size := max 1 (potential.length / 50)
      let (found, r', tr) := scanLoopTrace fs flag total (chunks batch_size potential)
        definitely definitely.length 1
      evs0 ++ tr ++ finishTrace flag r' found

/-- Total length of a list of batches. -/
def sumLen (l : List (List Path)) : Nat := (l.map List.length).sum

/-- Progress-call list that claim C3 predicts, worded from the spec: like
the scanner but with batch size `max 1 (totalCandidates / 50)` where
`totalCandidates` counts certain records and uncertain candidates alike.
Kept separate from `scan_folder_ultrafast` (whose batch size is
`max 1 (len(potential_dicom) // 50)`, `main.py:585`) for comparison. -/
def claimScanCalls (fs : FS) (all_files : List Path) : List (ℚ × String) :=
  let (definitely, potential) := scanPartition all_files
  let total := definitely.length + potential.length
  let batch_size := max 1 (total / 50)
  ((5 : ℚ), foundStatus definitely.length potential.length) ::
    (scanLoop fs total (chunks batch_size potential) definitely definitely.length).2.2

/-- Discriminator for progress messages. -/
def Msg.isProgress : Msg → Bool
  | .progress _ _ => true
  | _ => false

/-- Discriminator for probe events. -/
def SEvent.isProbe : SEvent → Bool
  | .probe _ => true
  | _ => false

/-- Discriminator for enqueue events. -/
def SEvent.isEnq : SEvent → Bool
  | .enq _ => true
  | _ => false

/-- The series-key string the load worker computes for one file
(`main.py:737-754`): defined when the metadata read succeeds. -/
def recordKey (fs : FS) (p : Path) : Option String :=
  (fs p).meta.map (fun dcm => seriesKeyOf dcm (is_dicom_video fs p))

/-- Progress stream the (amended) claim C6 predicts, worded from the spec:
one `Progress` message per index `i` at which metadata extraction
succeeds and `i % 3 = 0` or `i` is the last index, carrying percent
`(i+1)/n*100`.  `i` is the absolute index of the head of the remaining
list. -/
def claimLoadProgress (fs : FS) (n : Nat) : Nat → List Path → List Msg
  | _, [] => []
  | i, p :: rest =>
    (if (fs p).meta.isSome ∧ (i % 3 = 0 ∨ i = n - 1) then
      [Msg.progress (((i : ℚ) + 1) / (n : ℚ) * 100) (loadStatus (i + 1) n)]
    else []) ++ claimLoadProgress fs n (i + 1) rest

/-! ## Theorems -/

/-- Claim C4 counterexample: a 10-byte file named `tiny.dcm` is classified
`true` — the extension whitelist is consulted before the size bounds, so
the claim "for every file whose size is under 128 bytes …
`is_dicom_file_ultrafast` returns false regardless of the file's content
and name" is false at this input. -/
theorem C4_counterexample :
    is_dicom_file_ultrafast
        (fun _ => { size? := some 10, content? := some [], meta := none, pixelShape := none })
        ⟨"tiny", ".dcm"⟩ = true
      ∧ ((fun (_ : Path) =>
            ({ size? := some 10, content? := some [], meta := none, pixelShape := none }
              : FileEntry)) ⟨"tiny", ".dcm"⟩).size? = some 10 ∧ 10 < 128 := by
  refine ⟨by decide, rfl, by omega⟩

/-- Claim C4 (amended): for every file whose lowercased extension is not in
the record whitelist, a reported size under 128 bytes or over 500 MiB
makes `is_dicom_file_ultrafast` return false regardless of content. -/
theorem C4_size_bounds (fs : FS) (p : Path) (sz : Nat)
    (hext : dicomExts.contains (lowerStr p.ext) = false)
    (hsz : (fs p).size? = some sz)
    (hbound : sz < 128 ∨ 500 * 1024 * 1024 < sz) :
    is_dicom_file_ultrafast fs p = false := by
  have hm : ¬ lowerStr p.ext ∈ dicomExts := by simpa using hext
  unfold is_dicom_file_ultrafast is_dicom_file_ultrafastE
  rcases hbound with h | h
  · simp [hm, hsz, h]
  · have h128 : ¬ sz < 128 := by omega
    simp [hm, hsz, h128, h]

/-- Claim C4 witness: the amended theorem applied to a 5-byte `.txt` file.
-/
theorem C4_size_bounds_witness :
    is_dicom_file_ultrafast
        (fun _ => { size? := some 5, content? := none, meta := none, pixelShape := none })
        ⟨"note", ".txt"⟩ = false :=
  C4_size_bounds
    (fun _ => { size? := some 5, content? := none, meta := none, pixelShape := none })
    ⟨"note", ".txt"⟩ 5 (by decide) rfl (Or.inl (by omega))

/-- Preservation of the worker-count invariant by one loader step. -/
theorem loaderStep_invariant {a b : LoaderSys} (h : LoaderStep a b)
    (ha : a.active = (if a.st.running then 1 else 0)) :
    b.active = (if b.st.running then 1 else 0) := by
  cases h with
  | scanCall =>
    by_cases hr : a.st.running <;> simp [scan_folder_async, hr, ha]
  | loadCall =>
    by_cases hr : a.st.running <;> simp [load_files_async, hr, ha]
  | stopCall => simpa [stop_loading] using ha
  | finish h0 =>
    by_cases hr : a.st.running
    · simp [workerExit, hr, ha]
    · rw [ha, if_neg (by simpa using hr)] at h0
      omega

/-- Invariant of one loader instance: the number of live worker threads is
1 exactly while `running` is set, 0 otherwise. -/
theorem loader_active_invariant (sys : LoaderSys)
    (h : Relation.ReflTransGen LoaderStep loaderInit sys) :
    sys.active = (if sys.st.running then 1 else 0) := by
  induction h with
  | refl => rfl
  | tail _ hstep ih => exact loaderStep_invariant hstep ih

/-- Claim C2: calling `scan_folder_async` or `load_files_async` while
`running` is set is a no-op — the state (flags and queue included) is
unchanged and no worker thread is spawned — and consequently, along every
step sequence of a loader instance from its initial state, at most one
worker thread is ever active. -/
theorem C2_single_flight :
    (∀ s : LoaderState, s.running = true →
      scan_folder_async s = (s, false) ∧ load_files_async s = (s, false))
    ∧ ∀ sys : LoaderSys, Relation.ReflTransGen LoaderStep loaderInit sys →
        sys.active ≤ 1 := by
  constructor
  · intro s h
    constructor <;> simp [scan_folder_async, load_files_async, h]
  · intro sys h
    rw [loader_active_invariant sys h]
    split <;> omega

/-- Claim C2 witness: the no-op at a concrete busy state, and the worker
bound at the initial state. -/
theorem C2_single_flight_witness :
    scan_folder_async ⟨true, false, []⟩ = (⟨true, false, []⟩, false)
      ∧ loaderInit.active ≤ 1 :=
  ⟨(C2_single_flight.1 ⟨true, false, []⟩ rfl).1,
   C2_single_flight.2 loaderInit Relation.ReflTransGen.refl⟩

/-- Claim C10: both detectors are total boolean functions — any exception
their bodies can raise is caught by the outermost handler and mapped to
`false` — and the failure cases return false: a path whose size cannot be
read (and whose extension is not whitelisted) is rejected, an unreadable
file (size known, `open` and the structural parse failing, extension not
whitelisted) is rejected, and a file `pydicom` cannot read at all is not a
video. -/
theorem C10_detector_totality (fs : FS) (p : Path) :
    (is_dicom_file_ultrafastE fs p = .ok (is_dicom_file_ultrafast fs p)
      ∨ is_dicom_file_ultrafast fs p = false)
    ∧ (is_dicom_videoE fs p = .ok (is_dicom_video fs p)
      ∨ is_dicom_video fs p = false)
    ∧ ((fs p).size? = none → dicomExts.contains (lowerStr p.ext) = false →
        is_dicom_file_ultrafast fs p = false)
    ∧ ((fs p).content? = none → (fs p).meta = none →
        dicomExts.contains (lowerStr p.ext) = false →
        is_dicom_file_ultrafast fs p = false)
    ∧ ((fs p).meta = none → is_dicom_video fs p = false) := by
  refine ⟨?_, ?_, ?_, ?_, ?_⟩
  · cases h : is_dicom_file_ultrafastE fs p with
    | ok b => exact Or.inl (by simp [is_dicom_file_ultrafast, h])
    | error e => exact Or.inr (by simp [is_dicom_file_ultrafast, h])
  · cases h : is_dicom_videoE fs p with
    | ok b => exact Or.inl (by simp [is_dicom_video, h])
    | error e => exact Or.inr (by simp [is_dicom_video, h])
  · intro hsz hext
    have hm : ¬ lowerStr p.ext ∈ dicomExts := by simpa using hext
    simp [is_dicom_file_ultrafast, is_dicom_file_ultrafastE, hm, hsz]
  · intro hcontent hmeta hext
    have hm : ¬ lowerStr p.ext ∈ dicomExts := by simpa using hext
    unfold is_dicom_file_ultrafast is_dicom_file_ultrafastE
    cases hs : (fs p).size? with
    | none => simp [hm, hs]
    | some sz =>
      by_cases h1 : sz < 128 <;> by_cases h2 : sz > 500 * 1024 * 1024 <;>
        simp [hm, hs, hmeta, hcontent, h1, h2]
  · intro hmeta
    simp [is_dicom_video, is_dicom_videoE, hmeta]

/-- Claim C10 witness: both detectors reject a wholly nonexistent file. -/
theorem C10_detector_totality_witness :
    is_dicom_file_ultrafast (fun _ => {}) ⟨"ghost", ""⟩ = false
      ∧ is_dicom_video (fun _ => {}) ⟨"ghost", ""⟩ = false :=
  ⟨(C10_detector_totality (fun _ => {}) ⟨"ghost", ""⟩).2.2.1 rfl (by decide),
   (C10_detector_totality (fun _ => {}) ⟨"ghost", ""⟩).2.2.2.2 rfl⟩

/-- Fuel irrelevance for `chunksF`: any fuel dominating the list length
yields the same chunking. -/
theorem chunksF_irrel (n : Nat) :
    ∀ (fuel fuel' : Nat) (l : List α), l.length ≤ fuel → l.length ≤ fuel' →
      chunksF n fuel l = chunksF n fuel' l
  | fuel, fuel', [], _, _ => by cases fuel <;> cases fuel' <;> rfl
  | 0, _, x :: xs, h, _ => absurd h (by simp)
  | _ + 1, 0, x :: xs, _, h' => absurd h' (by simp)
  | fuel + 1, fuel' + 1, x :: xs, h, h' => by
    simp only [chunksF]
    have := chunksF_irrel n fuel fuel' (xs.drop (n - 1))
      (by simp only [List.length_drop]; simp at h; omega)
      (by simp only [List.length_drop]; simp at h'; omega)
    rw [this]

/-- Unfolding lemma: `chunks` on `[]`. -/
theorem chunks_nil (n : Nat) : chunks n ([] : List α) = [] := rfl

/-- Unfolding lemma: `chunks` on a nonempty list peels one chunk. -/
theorem chunks_cons (n : Nat) (x : α) (xs : List α) :
    chunks n (x :: xs) = (x :: xs.take (n - 1)) :: chunks n (xs.drop (n - 1)) := by
  show chunksF n (xs.length + 1) (x :: xs) = _
  simp only [chunksF]
  rw [chunksF_irrel n xs.length (xs.drop (n - 1)).length (xs.drop (n - 1))
    (by simp only [List.length_drop]; omega) le_rfl]
  rfl

/-- Chunking loses and reorders nothing. -/
theorem chunks_join (n : Nat) : ∀ l : List α, (chunks n l).join = l
  | [] => by simp [chunks_nil]
  | x :: xs => by
    have ih := chunks_join n (xs.drop (n - 1))
    simp [chunks_cons, ih]
termination_by l => l.length
decreasing_by simp only [List.length_drop, List.length_cons]; omega

/-- Every chunk is nonempty and no longer than the chunk size. -/
theorem chunks_mem_length (n : Nat) :
    ∀ l : List α, ∀ b ∈ chunks n l, b.length ≤ max 1 n ∧ b ≠ []
  | [] => by simp [chunks_nil]
  | x :: xs => by
    intro b hb
    rw [chunks_cons] at hb
    rcases List.mem_cons.mp hb with hb | hb
    · subst hb
      constructor
      · simp only [List.length_cons, List.length_take]
        omega
      · simp
    · exact chunks_mem_length n (xs.drop (n - 1)) b hb
termination_by l => l.length
decreasing_by simp only [List.length_drop, List.length_cons]; omega

/-- Every chunk except possibly the last has length exactly the chunk
size (for chunk size ≥ 1). -/
theorem chunks_dropLast_length (n : Nat) (hn : 1 ≤ n) :
    ∀ l : List α, ∀ b ∈ (chunks n l).dropLast, b.length = n
  | [] => by simp [chunks_nil]
  | x :: xs => by
    intro b hb
    rw [chunks_cons] at hb
    cases hrest : chunks n (xs.drop (n - 1)) with
    | nil => rw [hrest] at hb; simp at hb
    | cons r rs =>
      rw [hrest, List.dropLast_cons₂] at hb
      rcases List.mem_cons.mp hb with hb | hb
      · subst hb
        have hdrop : xs.drop (n - 1) ≠ [] := by
          intro h
          rw [h, chunks_nil] at hrest
          exact List.noConfusion hrest
        have : n - 1 ≤ xs.length := by
          by_contra hlen
          exact hdrop (List.drop_eq_nil_of_le (by omega))
        simp only [List.length_cons, List.length_take]
        omega
      · have := chunks_dropLast_length n hn (xs.drop (n - 1))
        rw [hrest] at this
        exact this b hb
termination_by l => l.length
decreasing_by simp only [List.length_drop, List.length_cons]; omega

/-- After the `k`-th probe batch, `scanLoop` reports
`(processedSoFar / total) * 95 + 5` percent, where `processedSoFar` is the
initial processed count plus everything probed so far. -/
theorem scanLoop_get (fs : FS) (total : Nat) :
    ∀ (batches : List (List Path)) (found : List Path) (processed k : Nat),
      k < batches.length →
      ∃ s, (scanLoop fs total batches found processed).2.2.get? k =
        some ((((processed + sumLen (batches.take (k + 1)) : ℕ) : ℚ) / (total : ℚ)) * 95 + 5, s)
  | [], _, _, _, h => absurd h (by simp)
  | b :: rest, found, processed, 0, _ => by
    refine ⟨batchStatus (processed + b.length) total
      (found ++ b.filter (fun p => is_dicom_file_ultrafast fs p)).length, ?_⟩
    simp [scanLoop, sumLen]
  | b :: rest, found, processed, k + 1, h => by
    obtain ⟨s, hs⟩ := scanLoop_get fs total rest
      (found ++ b.filter (fun p => is_dicom_file_ultrafast fs p))
      (processed + b.length) k (by simpa using h)
    refine ⟨s, ?_⟩
    have harith : processed + b.length + sumLen (rest.take (k + 1))
        = processed + sumLen ((b :: rest).take (k + 1 + 1)) := by
      simp [sumLen]; omega
    rw [harith] at hs
    simpa [scanLoop] using hs

set_option maxRecDepth 8000 in
/-- Claim C3 counterexample: on a folder of 100 certain `.dcm` records and
3 uncertain candidates, the scanner fires 3 batch progress calls (batch
size `max 1 (3 / 50) = 1`, plus the initial 5-percent call makes 4),
whereas the claimed batch size `max 1 (totalCandidates / 50) = 2` would
fire only 2 batch calls (3 with the initial one) — so the claim's batch
size `max(1, totalCandidates / 50)` is false at this input. -/
theorem C3_counterexample :
    ((scan_folder_ultrafast (fun _ => {})
        (.ok (List.replicate 100 (⟨"a", ".dcm"⟩ : Path)
          ++ List.replicate 3 (⟨"b", ""⟩ : Path)))).2).length = 4
    ∧ (claimScanCalls (fun _ => {})
        (List.replicate 100 (⟨"a", ".dcm"⟩ : Path)
          ++ List.replicate 3 (⟨"b", ""⟩ : Path))).length = 3 := by
  constructor <;> decide

/-- Claim C3 (amended): uncertain candidates are probed in batches of size
`max 1 (uncertainCount / 50)` — the divisor counts only the uncertain
candidates, not all candidates — every batch except possibly the last
being exactly that size, batches covering the candidate list in order;
and after each batch the progress callback is invoked with percent
`(processedSoFar / totalCandidates) * 95 + 5` together with a status
string, where `processedSoFar` includes the certain-record files. -/
theorem C3_batching (fs : FS) (all_files defs pots : List Path)
    (hpart : scanPartition all_files = (defs, pots)) (hne : all_files ≠ []) :
    (chunks (max 1 (pots.length / 50)) pots).join = pots
    ∧ (∀ b ∈ (chunks (max 1 (pots.length / 50)) pots).dropLast,
        b.length = max 1 (pots.length / 50))
    ∧ (∀ b ∈ chunks (max 1 (pots.length / 50)) pots,
        b.length ≤ max 1 (pots.length / 50) ∧ b ≠ [])
    ∧ ∀ k, k < (chunks (max 1 (pots.length / 50)) pots).length →
        ∃ s, ((scan_folder_ultrafast fs (.ok all_files)).2).get? (k + 1) =
          some ((((defs.length
                + sumLen ((chunks (max 1 (pots.length / 50)) pots).take (k + 1)) : ℕ) : ℚ)
              / ((defs.length + pots.length : ℕ) : ℚ)) * 95 + 5, s) := by
  refine ⟨chunks_join _ pots, chunks_dropLast_length _ (le_max_left 1 _) pots, ?_, ?_⟩
  · intro b hb
    simpa using chunks_mem_length (max 1 (pots.length / 50)) pots b hb
  · intro k hk
    obtain ⟨s, hs⟩ := scanLoop_get fs (defs.length + pots.length)
      (chunks (max 1 (pots.length / 50)) pots) defs defs.length k hk
    refine ⟨s, ?_⟩
    have hemp : all_files.isEmpty = false := by
      cases all_files with
      | nil => exact absurd rfl hne
      | cons a l => rfl
    simp only [scan_folder_ultrafast, hpart, hemp, Bool.false_eq_true, if_false,
      List.get?_cons_succ]
    exact hs

/-- Claim C3 witness: the amended batching property applied to a concrete
two-file folder (one certain record, one candidate). -/
theorem C3_batching_witness :
    (chunks (max 1 (([(⟨"b", ""⟩ : Path)] : List Path).length / 50)) [⟨"b", ""⟩]).join
        = [(⟨"b", ""⟩ : Path)]
    ∧ (∀ b ∈ (chunks (max 1 (([(⟨"b", ""⟩ : Path)] : List Path).length / 50))
          [(⟨"b", ""⟩ : Path)]).dropLast,
        b.length = max 1 (([(⟨"b", ""⟩ : Path)] : List Path).length / 50))
    ∧ (∀ b ∈ chunks (max 1 (([(⟨"b", ""⟩ : Path)] : List Path).length / 50))
          [(⟨"b", ""⟩ : Path)],
        b.length ≤ max 1 (([(⟨"b", ""⟩ : Path)] : List Path).length / 50) ∧ b ≠ [])
    ∧ ∀ k, k < (chunks (max 1 (([(⟨"b", ""⟩ : Path)] : List Path).length / 50))
          [(⟨"b", ""⟩ : Path)]).length →
        ∃ s, ((scan_folder_ultrafast (fun _ => {})
            (.ok [⟨"a", ".dcm"⟩, ⟨"b", ""⟩])).2).get? (k + 1) =
          some ((((([(⟨"a", ".dcm"⟩ : Path)] : List Path).length
                + sumLen ((chunks (max 1 (([(⟨"b", ""⟩ : Path)] : List Path).length / 50))
                    [(⟨"b", ""⟩ : Path)]).take (k + 1)) : ℕ) : ℚ)
              / ((([(⟨"a", ".dcm"⟩ : Path)] : List Path).length
                + ([(⟨"b", ""⟩ : Path)] : List Path).length : ℕ) : ℚ)) * 95 + 5, s) :=
  C3_batching (fun _ => {}) [⟨"a", ".dcm"⟩, ⟨"b", ""⟩] [⟨"a", ".dcm"⟩] [⟨"b", ""⟩]
    (by decide) (by decide)

/-- Bridging lemma: the computable `Rat.floor` is Mathlib's `⌊⌋`. -/
theorem ratFloor_eq (q : ℚ) : Rat.floor q = ⌊q⌋ := rfl

/-- Folded minimum is attained and bounds every element. -/
theorem foldl_min_spec : ∀ (xs : List ℚ) (a : ℚ),
    xs.foldl min a ∈ a :: xs ∧ ∀ y ∈ a :: xs, xs.foldl min a ≤ y
  | [], a => by simp
  | x :: xs, a => by
    obtain ⟨hmem, hle⟩ := foldl_min_spec xs (min a x)
    constructor
    · rcases List.mem_cons.mp hmem with h | h
      · rcases min_choice a x with hax | hax <;> rw [List.foldl_cons, h, hax] <;> simp
      · simp [List.foldl_cons, List.mem_cons.mpr (Or.inr (List.mem_cons.mpr (Or.inr h)))]
    · intro y hy
      rcases List.mem_cons.mp hy with h | h
      · rw [h]
        exact le_trans (hle _ (List.mem_cons_self _ _)) (min_le_left a x)
      rcases List.mem_cons.mp h with h | h
      · rw [h]
        exact le_trans (hle _ (List.mem_cons_self _ _)) (min_le_right a x)
      · exact hle y (List.mem_cons.mpr (Or.inr h))

/-- Folded maximum is attained and bounds every element. -/
theorem foldl_max_spec : ∀ (xs : List ℚ) (a : ℚ),
    xs.foldl max a ∈ a :: xs ∧ ∀ y ∈ a :: xs, y ≤ xs.foldl max a
  | [], a => by simp
  | x :: xs, a => by
    obtain ⟨hmem, hle⟩ := foldl_max_spec xs (max a x)
    constructor
    · rcases List.mem_cons.mp hmem with h | h
      · rcases max_choice a x with hax | hax <;> rw [List.foldl_cons, h, hax] <;> simp
      · simp [List.foldl_cons, List.mem_cons.mpr (Or.inr (List.mem_cons.mpr (Or.inr h)))]
    · intro y hy
      rcases List.mem_cons.mp hy with h | h
      · rw [h]
        exact le_trans (le_max_left a x) (hle _ (List.mem_cons_self _ _))
      rcases List.mem_cons.mp h with h | h
      · rw [h]
        exact le_trans (le_max_right a x) (hle _ (List.mem_cons_self _ _))
      · exact hle y (List.mem_cons.mpr (Or.inr h))

/-- The minimum of a nonempty sample list belongs to it. -/
theorem listMin_mem {l : List ℚ} (h : l ≠ []) : listMin l ∈ l := by
  cases l with
  | nil => exact absurd rfl h
  | cons x xs => exact (foldl_min_spec xs x).1

/-- The minimum bounds every sample. -/
theorem listMin_le {l : List ℚ} {x : ℚ} (h : x ∈ l) : listMin l ≤ x := by
  cases l with
  | nil => simp at h
  | cons a xs => exact (foldl_min_spec xs a).2 x h

/-- The maximum of a nonempty sample list belongs to it. -/
theorem listMax_mem {l : List ℚ} (h : l ≠ []) : listMax l ∈ l := by
  cases l with
  | nil => exact absurd rfl h
  | cons x xs => exact (foldl_max_spec xs x).1

/-- The maximum bounds every sample. -/
theorem le_listMax {l : List ℚ} {x : ℚ} (h : x ∈ l) : x ≤ listMax l := by
  cases l with
  | nil => simp at h
  | cons a xs => exact (foldl_max_spec xs a).2 x h

/-- Scaling a ratio in `[0, 1]` to 255 and flooring stays within the 8-bit
range. -/
theorem floor_scale_bounds {t : ℚ} (h0 : 0 ≤ t) (h1 : t ≤ 1) :
    (0 : ℚ) ≤ ((Rat.floor (t * 255) : ℤ) : ℚ) ∧ ((Rat.floor (t * 255) : ℤ) : ℚ) ≤ 255 := by
  rw [ratFloor_eq]
  constructor
  · exact_mod_cast Int.le_floor.mpr (by push_cast; positivity)
  · have : ⌊t * 255⌋ ≤ ⌊(255 : ℚ)⌋ := by
      apply Int.floor_le_floor
      nlinarith
    have h255 : ⌊(255 : ℚ)⌋ = 255 := by
      norm_num
    exact_mod_cast this.trans_eq h255

/-- Claim C9: min-max normalization of a non-`uint8`, non-constant frame
without window hints attains 0 (at the sample minimum) and 255 (at the
sample maximum); and a constant frame (with or without hints) becomes a
uniform 128 frame of the same length. -/
theorem C9_minmax_normalization :
    (∀ (frame : List ℚ) (wc ww : Option ℚ), (wc = none ∨ ww = none) →
      frame ≠ [] → listMin frame < listMax frame →
      listMin (normalizeFrame false wc ww frame) = 0
        ∧ listMax (normalizeFrame false wc ww frame) = 255)
    ∧ (∀ (frame : List ℚ) (wc ww : Option ℚ), listMin frame = listMax frame →
      normalizeFrame false wc ww frame = List.replicate frame.length 128) := by
  constructor
  · intro frame wc ww hw hne hlt
    have hout : normalizeFrame false wc ww frame =
        frame.map (fun x =>
          ((Rat.floor ((x - listMin frame) / (listMax frame - listMin frame) * 255) : ℤ) : ℚ)) := by
      unfold normalizeFrame
      rcases hw with h | h
      · subst h; simp [hlt]
      · subst h; cases wc <;> simp [hlt]
    set m := listMin frame with hm
    set M := listMax frame with hM
    have hMm : (0 : ℚ) < M - m := sub_pos.mpr hlt
    set g : ℚ → ℚ :=
      fun x => ((Rat.floor ((x - m) / (M - m) * 255) : ℤ) : ℚ) with hg
    have hbounds : ∀ x ∈ frame, 0 ≤ g x ∧ g x ≤ 255 := by
      intro x hx
      have h0 : 0 ≤ (x - m) / (M - m) :=
        div_nonneg (sub_nonneg.mpr (listMin_le hx)) hMm.le
      have h1 : (x - m) / (M - m) ≤ 1 :=
        (div_le_one hMm).mpr (by have := le_listMax hx; linarith)
      exact floor_scale_bounds h0 h1
    have hgm : g m = 0 := by
      simp [hg, ratFloor_eq]
    have hgM : g M = 255 := by
      have : (M - m) / (M - m) = 1 := div_self hMm.ne'
      simp only [hg, this, one_mul, ratFloor_eq]
      norm_num
    rw [hout]
    have hmapne : frame.map g ≠ [] := by
      intro h
      exact hne (List.map_eq_nil.mp h)
    constructor
    · refine le_antisymm ?_ ?_
      · have : (0 : ℚ) ∈ frame.map g :=
          List.mem_map.mpr ⟨m, listMin_mem hne, hgm⟩
        exact listMin_le this
      · obtain ⟨x, hx, hgx⟩ := List.mem_map.mp (listMin_mem hmapne)
        rw [← hgx]
        exact (hbounds x hx).1
    · refine le_antisymm ?_ ?_
      · obtain ⟨x, hx, hgx⟩ := List.mem_map.mp (listMax_mem hmapne)
        rw [← hgx]
        exact (hbounds x hx).2
      · have : (255 : ℚ) ∈ frame.map g :=
          List.mem_map.mpr ⟨M, listMax_mem hne, hgM⟩
        exact le_listMax this
  · intro frame wc ww hconst
    unfold normalizeFrame
    rw [hconst]
    simp

/-- Claim C9 witness: the frame `[10, 200]` (the spec's example range)
normalizes to extremes 0 and 255, and the constant frame `[7, 7]` becomes
`[128, 128]`. -/
theorem C9_minmax_normalization_witness :
    (listMin (normalizeFrame false none none [10, 200]) = 0
      ∧ listMax (normalizeFrame false none none [10, 200]) = 255)
    ∧ normalizeFrame false none none [7, 7] = List.replicate 2 128 :=
  ⟨C9_minmax_normalization.1 [10, 200] none none (Or.inl rfl) (by decide) (by decide),
   by
    have := C9_minmax_normalization.2 [7, 7] none none (by decide)
    simpa using this⟩

attribute [local semireducible] Rat.mul Rat.add Rat.sub Rat.inv in
/-- Claim C5 counterexample: for center 100 and the odd width 51 the code
clips to `[100 - (51 // 2), 100 + (51 // 2)] = [75, 125]` (floor
division), not to the claimed `[c - w/2, c + w/2] = [74.5, 125.5]`: the
samples 75 and 125 map to 0 and 255 under the code but to 2 and 252 under
the claimed clip-and-rescale, so the claim is false at this input. -/
theorem C5_counterexample :
    normalizeFrame false (some 100) (some 51) [75, 125] = [0, 255]
    ∧ specWindowNormalize 100 51 [75, 125] = [2, 252]
    ∧ normalizeFrame false (some 100) (some 51) [75, 125]
        ≠ specWindowNormalize 100 51 [75, 125] :=
  ⟨by decide, by decide, by decide⟩

/-- Claim C5 (amended): for a non-`uint8`, non-constant frame with both
window hints present and width at least 2, every sample is clipped to
`[c - ⌊w/2⌋, c + ⌊w/2⌋]` (floor division, as in the source's `w // 2`)
and that range is linearly rescaled to `[0, 255]`: all outputs lie in
`[0, 255]`, a sample at or below the lower clip bound maps to 0, a sample
at or above the upper bound maps to 255, and a sample equal to the center
maps to 127 (the truncation of 127.5). -/
theorem C5_windowed (frame : List ℚ) (c w : ℚ)
    (hw : 1 ≤ Rat.floor (w / 2))
    (hlt : listMin frame < listMax frame) :
    (∀ y ∈ normalizeFrame false (some c) (some w) frame, 0 ≤ y ∧ y ≤ 255)
    ∧ (∀ i x, frame.get? i = some x → x ≤ c - (Rat.floor (w / 2) : ℚ) →
        (normalizeFrame false (some c) (some w) frame).get? i = some 0)
    ∧ (∀ i x, frame.get? i = some x → c + (Rat.floor (w / 2) : ℚ) ≤ x →
        (normalizeFrame false (some c) (some w) frame).get? i = some 255)
    ∧ (∀ i, frame.get? i = some c →
        (normalizeFrame false (some c) (some w) frame).get? i = some 127) := by
  have hd : (1 : ℚ) ≤ ((Rat.floor (w / 2) : ℤ) : ℚ) := by exact_mod_cast hw
  set d : ℚ := ((Rat.floor (w / 2) : ℤ) : ℚ) with hdd
  have hout : normalizeFrame false (some c) (some w) frame =
      frame.map (fun x =>
        ((Rat.floor ((clipQ x (c - d) (c + d) - (c - d)) / ((c + d) - (c - d)) * 255) : ℤ) : ℚ)) := by
    unfold normalizeFrame
    simp [hlt]
  have h2d : (c + d) - (c - d) = 2 * d := by ring
  have h2dpos : (0 : ℚ) < 2 * d := by linarith
  have hlohi : c - d ≤ c + d := by linarith
  refine ⟨?_, ?_, ?_, ?_⟩
  · intro y hy
    rw [hout] at hy
    obtain ⟨x, _, hgx⟩ := List.mem_map.mp hy
    have hclip_lo : c - d ≤ clipQ x (c - d) (c + d) :=
      le_min hlohi (le_max_right x (c - d))
    have hclip_hi : clipQ x (c - d) (c + d) ≤ c + d := min_le_left _ _
    have h0 : 0 ≤ (clipQ x (c - d) (c + d) - (c - d)) / ((c + d) - (c - d)) :=
      div_nonneg (by linarith) (by linarith)
    have h1 : (clipQ x (c - d) (c + d) - (c - d)) / ((c + d) - (c - d)) ≤ 1 :=
      (div_le_one (by linarith)).mpr (by linarith)
    rw [← hgx]
    exact floor_scale_bounds h0 h1
  · intro i x hi hx
    have hclip : clipQ x (c - d) (c + d) = c - d := by
      unfold clipQ
      rw [max_eq_right hx, min_eq_right hlohi]
    rw [hout, List.get?_map, hi]
    simp only [Option.map_some']
    rw [hclip, sub_self, zero_div, zero_mul, ratFloor_eq]
    norm_num
  · intro i x hi hx
    have hclip : clipQ x (c - d) (c + d) = c + d := by
      unfold clipQ
      rw [max_eq_left (le_trans hlohi hx), min_eq_left hx]
    rw [hout, List.get?_map, hi]
    simp only [Option.map_some']
    rw [hclip, h2d, div_self (ne_of_gt h2dpos), one_mul, ratFloor_eq]
    norm_num
  · intro i hi
    have hclip : clipQ c (c - d) (c + d) = c := by
      unfold clipQ
      rw [max_eq_left (by linarith), min_eq_right (by linarith)]
    rw [hout, List.get?_map, hi]
    simp only [Option.map_some']
    rw [hclip, h2d, show c - (c - d) = d from by ring]
    have hval : d / (2 * d) * 255 = 255 / 2 := by
      have hdne : d ≠ 0 := by positivity
      field_simp
      ring
    rw [hval, ratFloor_eq]
    have h127 : ⌊(255 : ℚ) / 2⌋ = 127 := by
      rw [Int.floor_eq_iff]
      norm_num
    rw [h127]
    norm_num

attribute [local semireducible] Rat.mul Rat.add Rat.sub Rat.inv in
/-- Claim C5 witness: center 100, width 50, frame `[75, 125, 100]` — the
boundary samples map to 0 and 255 and the center sample to 127. -/
theorem C5_windowed_witness :
    (normalizeFrame false (some 100) (some 50) [75, 125, 100]).get? 0 = some 0
    ∧ (normalizeFrame false (some 100) (some 50) [75, 125, 100]).get? 1 = some 255
    ∧ (normalizeFrame false (some 100) (some 50) [75, 125, 100]).get? 2 = some 127 :=
  ⟨(C5_windowed [75, 125, 100] 100 50 (by decide) (by decide)).2.1 0 75 rfl (by decide),
   (C5_windowed [75, 125, 100] 100 50 (by decide) (by decide)).2.2.1 1 125 rfl (by decide),
   (C5_windowed [75, 125, 100] 100 50 (by decide) (by decide)).2.2.2 2 rfl⟩

/-- Progress messages of an uncancelled load-worker loop, characterized:
exactly one message per successfully extracted index `i` with
`i % 3 = 0` or `i` last. -/
theorem ultraLoadGo_msgs (fs : FS) (n : Nat) :
    ∀ (l : List Path) (i : Nat) (acc : SeriesDict),
      (ultraLoadGo fs (fun _ => false) n l i acc).2.1 = claimLoadProgress fs n i l
  | [], i, acc => by simp [ultraLoadGo, claimLoadProgress]
  | p :: rest, i, acc => by
    cases hm : (fs p).meta with
    | none =>
      have ih := ultraLoadGo_msgs fs n rest (i + 1) acc
      simp [ultraLoadGo, claimLoadProgress, hm, ih]
    | some dcm =>
      have ih := ultraLoadGo_msgs fs n rest (i + 1)
        (dictAppendFile
          (if (dictLookup acc (seriesKeyOf dcm (is_dicom_video fs p))).isSome then acc
           else acc ++ [(seriesKeyOf dcm (is_dicom_video fs p),
             mkSeriesInfo p dcm (is_dicom_video fs p))])
          (seriesKeyOf dcm (is_dicom_video fs p)) p)
      simp [ultraLoadGo, claimLoadProgress, hm, ih]

/-- The predicted progress stream contains only progress messages. -/
theorem claimLoadProgress_filter (fs : FS) (n : Nat) :
    ∀ (i : Nat) (l : List Path),
      (claimLoadProgress fs n i l).filter Msg.isProgress = claimLoadProgress fs n i l
  | _, [] => rfl
  | i, p :: rest => by
    have ih := claimLoadProgress_filter fs n (i + 1) rest
    by_cases hc : (fs p).meta.isSome ∧ (i % 3 = 0 ∨ i = n - 1) <;>
      simp [claimLoadProgress, hc, ih, Msg.isProgress]

/-- Claim C6 counterexample: a single-file load whose metadata extraction
fails enqueues no progress message at all — the unconditional last-file
progress message the claim demands (index 0 is the last index here) is
missing, because the progress emission sits inside the per-file `try`
after the extraction (`main.py:773-776`). -/
theorem C6_counterexample :
    (ultra_load_worker (fun _ => {}) (fun _ => false) [⟨"f", ""⟩]).filter Msg.isProgress
      = [] := by decide

/-- Claim C6 (amended): for every input list of n paths, the uncancelled
load worker enqueues a Progress message with percent `(i+1)/n*100` for
exactly those indices `i` at which metadata extraction succeeds and
`i % 3 = 0` or `i = n - 1`; an index whose extraction fails produces no
message even when it is the last. -/
theorem C6_progress (fs : FS) (files : List Path) :
    (ultra_load_worker fs (fun _ => false) files).filter Msg.isProgress
      = claimLoadProgress fs files.length 0 files := by
  rcases hgo : ultraLoadGo fs (fun _ => false) files.length files 0 [] with ⟨dict, ms, es, r⟩
  have hms : ms = claimLoadProgress fs files.length 0 files := by
    have := ultraLoadGo_msgs fs files.length files 0 []
    rw [hgo] at this
    exact this
  simp only [ultra_load_worker]
  rw [hgo]
  simp only [Bool.false_eq_true, if_false, List.filter_append]
  have h1 : List.filter Msg.isProgress [Msg.complete (sortDict fs dict)] = [] := rfl
  rw [h1, List.append_nil, hms, claimLoadProgress_filter]

/-- Filtering by one key value commutes with `orderedInsert` for the
key-based order: the inserted element lands in front of its key class. -/
theorem filter_orderedInsert (key : Path → ℤ) (v : ℤ) (a : Path) :
    ∀ l : List Path,
      (List.orderedInsert (fun x y => key x ≤ key y) a l).filter
          (fun p => decide (key p = v))
        = if key a = v then
            a :: l.filter (fun p => decide (key p = v))
          else l.filter (fun p => decide (key p = v))
  | [] => by
    by_cases hav : key a = v <;> simp [List.orderedInsert, hav]
  | b :: bs => by
    by_cases hab : key a ≤ key b
    · rw [List.orderedInsert, if_pos hab]
      by_cases hav : key a = v <;> simp [List.filter_cons, hav]
    · rw [List.orderedInsert, if_neg hab]
      have hres := filter_orderedInsert key v a bs
      rw [List.filter_cons, hres]
      by_cases hav : key a = v
      · have hbv : ¬ key b = v := by
          have hba : key b < key a := not_le.mp hab
          intro hc
          rw [hc, ← hav] at hba
          exact lt_irrefl _ hba
        simp [hbv, hav, List.filter_cons]
      · simp [hav, List.filter_cons]

/-- Stability of the modelled sort: the sublist of records with any fixed
instance number is unchanged by `insertionSort`. -/
theorem filter_insertionSort (key : Path → ℤ) (v : ℤ) :
    ∀ l : List Path,
      (List.insertionSort (fun x y => key x ≤ key y) l).filter
          (fun p => decide (key p = v))
        = l.filter (fun p => decide (key p = v))
  | [] => rfl
  | a :: l => by
    rw [List.insertionSort, filter_orderedInsert key v a,
      filter_insertionSort key v l, List.filter_cons]
    by_cases hav : key a = v <;> simp [hav]

/-- Claim C7: after a completed (uncancelled) load run, every series
bucket's file list is sorted ascending by instance number (missing or
unparsable `InstanceNumber` counting as 0, as `instNum` implements), and
is a permutation of the bucket's arrival-order list in which every class
of equal instance numbers keeps its arrival order (stability). -/
theorem C7_bucket_sorted (fs : FS) (files : List Path) (k : String) (info : SeriesInfo)
    (h : (k, info) ∈ sortDict fs (loadDict fs files)) :
    List.Sorted (fun a b => instNum fs a ≤ instNum fs b) info.files
    ∧ ∃ info₀ : SeriesInfo, (k, info₀) ∈ loadDict fs files
        ∧ info.files.Perm info₀.files
        ∧ ∀ v : ℤ, info.files.filter (fun p => decide (instNum fs p = v))
            = info₀.files.filter (fun p => decide (instNum fs p = v)) := by
  obtain ⟨⟨k₀, info₀⟩, hmem, heq⟩ := List.mem_map.mp h
  have hk : k₀ = k := congrArg Prod.fst heq
  have hinfo : ({ info₀ with
      files := List.insertionSort (fun a b => instNum fs a ≤ instNum fs b) info₀.files }
      : SeriesInfo) = info := congrArg Prod.snd heq
  subst hk
  haveI : IsTotal Path (fun a b => instNum fs a ≤ instNum fs b) :=
    ⟨fun a b => le_total _ _⟩
  haveI : IsTrans Path (fun a b => instNum fs a ≤ instNum fs b) :=
    ⟨fun a b c hab hbc => le_trans hab hbc⟩
  refine ⟨?_, info₀, hmem, ?_, ?_⟩
  · rw [← hinfo]
    exact List.sorted_insertionSort _ _
  · rw [← hinfo]
    exact List.perm_insertionSort _ _
  · intro v
    rw [← hinfo]
    exact filter_insertionSort (instNum fs) v info₀.files

/-- Bucket-key invariant of the load-worker loop: every file in a bucket
was filed under exactly that bucket's key string. -/
theorem ultraLoadGo_key_inv (fs : FS) (flag : Nat → Bool) (n : Nat) :
    ∀ (l : List Path) (i : Nat) (acc : SeriesDict),
      (∀ k info, (k, info) ∈ acc → ∀ p ∈ info.files, recordKey fs p = some k) →
      ∀ k info, (k, info) ∈ (ultraLoadGo fs flag n l i acc).1 →
        ∀ p ∈ info.files, recordKey fs p = some k
  | [], i, acc, hInv => by
    simpa [ultraLoadGo] using hInv
  | q :: rest, i, acc, hInv => by
    by_cases hflag : flag i
    · simpa [ultraLoadGo, hflag] using hInv
    · cases hm : (fs q).meta with
      | none =>
        have ih := ultraLoadGo_key_inv fs flag n rest (i + 1) acc hInv
        simpa [ultraLoadGo, hflag, hm] using ih
      | some dcm =>
        set key := seriesKeyOf dcm (is_dicom_video fs q) with hkey
        set acc' : SeriesDict :=
          if (dictLookup acc key).isSome then acc
          else acc ++ [(key, mkSeriesInfo q dcm (is_dicom_video fs q))] with hacc'
        have hInv' : ∀ k info, (k, info) ∈ acc' → ∀ p ∈ info.files,
            recordKey fs p = some k := by
          intro k info hmem p hp
          rw [hacc'] at hmem
          by_cases hlook : (dictLookup acc key).isSome
          · exact hInv k info (by simpa [hlook] using hmem) p hp
          · rw [if_neg hlook] at hmem
            rcases List.mem_append.mp hmem with hmem | hmem
            · exact hInv k info hmem p hp
            · have heq := List.mem_singleton.mp hmem
              have h2 : info = mkSeriesInfo q dcm (is_dicom_video fs q) :=
                congrArg Prod.snd heq
              have hfe : info.files = [] := by rw [h2]; rfl
              rw [hfe] at hp
              simp at hp
        have hInv'' : ∀ k info, (k, info) ∈ dictAppendFile acc' key q →
            ∀ p ∈ info.files, recordKey fs p = some k := by
          intro k info hmem p hp
          obtain ⟨⟨k₁, info₁⟩, hmem₁, heq₁⟩ := List.mem_map.mp hmem
          by_cases hk₁ : k₁ = key
          · rw [if_pos hk₁] at heq₁
            have hkk : k₁ = k := congrArg Prod.fst heq₁
            have hfs : ({ info₁ with files := info₁.files ++ [q] } : SeriesInfo) = info :=
              congrArg Prod.snd heq₁
            have hfiles : info.files = info₁.files ++ [q] := by rw [← hfs]
            rw [hfiles] at hp
            rcases List.mem_append.mp hp with hp | hp
            · have hrec := hInv' k₁ info₁ hmem₁ p hp
              rw [← hkk]
              exact hrec
            · have hpq := List.mem_singleton.mp hp
              rw [hpq, ← hkk, hk₁, recordKey, hm]
              rfl
          · rw [if_neg hk₁] at heq₁
            have hkk : k₁ = k := congrArg Prod.fst heq₁
            have hii : info₁ = info := congrArg Prod.snd heq₁
            rw [← hkk]
            rw [← hii] at hp
            exact hInv' k₁ info₁ hmem₁ p hp
        have ih := ultraLoadGo_key_inv fs flag n rest (i + 1)
          (dictAppendFile acc' key q) hInv''
        simpa [ultraLoadGo, hflag, hm, ← hkey, ← hacc'] using ih

/-- Claim C8 counterexample: two files with different raw SeriesNumber
components — the numeric 0 and the non-numeric string value "7" — land in
the same bucket `"000 - Unnamed Series (Unknown)"` because both format to
the `"000"` prefix (`main.py:751-754`), so a bucket can mix records whose
four-component keys differ. -/
theorem C8_counterexample :
    (loadDict
        (fun p => if p = ⟨"a", ""⟩ then
            { meta := some { seriesNumber := some (.numeric 0) } }
          else { meta := some { seriesNumber := some (.nonNumeric "7") } })
        [⟨"a", ""⟩, ⟨"b", ""⟩]).map
        (fun kv => (kv.1, kv.2.files))
      = [("000 - Unnamed Series (Unknown)", [⟨"a", ""⟩, ⟨"b", ""⟩])]
    ∧ ((fun (p : Path) => if p = ⟨"a", ""⟩ then
            ({ meta := some { seriesNumber := some (.numeric 0) } } : FileEntry)
          else { meta := some { seriesNumber := some (.nonNumeric "7") } })
          ⟨"a", ""⟩).meta.map DicomMeta.seriesNumber
        ≠ ((fun (p : Path) => if p = ⟨"a", ""⟩ then
            ({ meta := some { seriesNumber := some (.numeric 0) } } : FileEntry)
          else { meta := some { seriesNumber := some (.nonNumeric "7") } })
          ⟨"b", ""⟩).meta.map DicomMeta.seriesNumber := by
  constructor <;> decide

/-- Claim C8 (amended): any two files placed in the same bucket agree on
the full formatted key string (fixed-width series number, description,
modality and video indicator as one string) — but not necessarily on the
four raw components, since distinct raw series numbers can format
identically. -/
theorem C8_bucket_key (fs : FS) (files : List Path) (k : String) (info : SeriesInfo)
    (h : (k, info) ∈ loadDict fs files) :
    ∀ p ∈ info.files, recordKey fs p = some k := by
  exact ultraLoadGo_key_inv fs (fun _ => false) files.length files 0 []
    (by intro k info hmem; simp at hmem) k info h


/-- Claim C7 witness: a two-file series (instance numbers both defaulting
to 0) — the sorted bucket is sorted and keeps arrival order on the tie. -/
theorem C7_bucket_sorted_witness :
    List.Sorted
        (fun a b => instNum (fun _ => { meta := some {} }) a
          ≤ instNum (fun _ => { meta := some {} }) b)
        ({ files := [⟨"a", ""⟩, ⟨"b", ""⟩], description := "Unnamed Series",
           modality := "Unknown", patient_name := "Unknown", patient_id := "Unknown",
           study_description := "Unknown Study", study_date := "Unknown",
           series_uid := "Unknown_a", is_video := false,
           frame_count := pyInt 1 } : SeriesInfo).files
    ∧ ∃ info₀ : SeriesInfo,
        ("000 - Unnamed Series (Unknown)", info₀)
            ∈ loadDict (fun _ => { meta := some {} }) [⟨"a", ""⟩, ⟨"b", ""⟩]
        ∧ ({ files := [⟨"a", ""⟩, ⟨"b", ""⟩], description := "Unnamed Series",
             modality := "Unknown", patient_name := "Unknown", patient_id := "Unknown",
             study_description := "Unknown Study", study_date := "Unknown",
             series_uid := "Unknown_a", is_video := false,
             frame_count := pyInt 1 } : SeriesInfo).files.Perm info₀.files
        ∧ ∀ v : ℤ,
            ({ files := [⟨"a", ""⟩, ⟨"b", ""⟩], description := "Unnamed Series",
               modality := "Unknown", patient_name := "Unknown", patient_id := "Unknown",
               study_description := "Unknown Study", study_date := "Unknown",
               series_uid := "Unknown_a", is_video := false,
               frame_count := pyInt 1 } : SeriesInfo).files.filter
                (fun p => decide (instNum (fun _ => { meta := some {} }) p = v))
              = info₀.files.filter
                (fun p => decide (instNum (fun _ => { meta := some {} }) p = v)) :=
  C7_bucket_sorted (fun _ => { meta := some {} }) [⟨"a", ""⟩, ⟨"b", ""⟩]
    "000 - Unnamed Series (Unknown)"
    { files := [⟨"a", ""⟩, ⟨"b", ""⟩], description := "Unnamed Series",
      modality := "Unknown", patient_name := "Unknown", patient_id := "Unknown",
      study_description := "Unknown Study", study_date := "Unknown",
      series_uid := "Unknown_a", is_video := false, frame_count := pyInt 1 }
    (by decide)

/-- Claim C8 witness: in the mixed bucket of the counterexample both files
carry the bucket's formatted key string. -/
theorem C8_bucket_key_witness :
    recordKey
        (fun p => if p = ⟨"a", ""⟩ then
            { meta := some { seriesNumber := some (.numeric 0) } }
          else { meta := some { seriesNumber := some (.nonNumeric "7") } })
        ⟨"a", ""⟩ = some "000 - Unnamed Series (Unknown)"
    ∧ recordKey
        (fun p => if p = ⟨"a", ""⟩ then
            { meta := some { seriesNumber := some (.numeric 0) } }
          else { meta := some { seriesNumber := some (.nonNumeric "7") } })
        ⟨"b", ""⟩ = some "000 - Unnamed Series (Unknown)" :=
  ⟨C8_bucket_key
    (fun p => if p = ⟨"a", ""⟩ then
        { meta := some { seriesNumber := some (.numeric 0) } }
      else { meta := some { seriesNumber := some (.nonNumeric "7") } })
    [⟨"a", ""⟩, ⟨"b", ""⟩] "000 - Unnamed Series (Unknown)"
    { files := [⟨"a", ""⟩, ⟨"b", ""⟩], description := "Unnamed Series",
      modality := "Unknown", patient_name := "Unknown", patient_id := "Unknown",
      study_description := "Unknown Study", study_date := "Unknown",
      series_uid := "Unknown_a", is_video := false, frame_count := pyInt 1 }
    (by decide) ⟨"a", ""⟩ (by decide),
   C8_bucket_key
    (fun p => if p = ⟨"a", ""⟩ then
        { meta := some { seriesNumber := some (.numeric 0) } }
      else { meta := some { seriesNumber := some (.nonNumeric "7") } })
    [⟨"a", ""⟩, ⟨"b", ""⟩] "000 - Unnamed Series (Unknown)"
    { files := [⟨"a", ""⟩, ⟨"b", ""⟩], description := "Unnamed Series",
      modality := "Unknown", patient_name := "Unknown", patient_id := "Unknown",
      study_description := "Unknown Study", study_date := "Unknown",
      series_uid := "Unknown_a", is_video := false, frame_count := pyInt 1 }
    (by decide) ⟨"b", ""⟩ (by decide)⟩

/-- Extraction indices of the load-worker loop start at the loop's first
index and occupy a prefix on which every flag read returned false. -/
theorem ultraLoadGo_extract_bound (fs : FS) (flag : Nat → Bool) (n : Nat) :
    ∀ (l : List Path) (i : Nat) (acc : SeriesDict),
      ∀ j ∈ (ultraLoadGo fs flag n l i acc).2.2.1,
        i ≤ j ∧ ∀ k, i ≤ k → k ≤ j → flag k = false
  | [], i, acc => by simp [ultraLoadGo]
  | p :: rest, i, acc => by
    intro j hj
    by_cases hflag : flag i
    · simp [ultraLoadGo, hflag] at hj
    · have hstep : ∀ (acc' : SeriesDict),
          j ∈ i :: (ultraLoadGo fs flag n rest (i + 1) acc').2.2.1 →
          i ≤ j ∧ ∀ k, i ≤ k → k ≤ j → flag k = false := by
        intro acc' hj'
        rcases List.mem_cons.mp hj' with rfl | hj'
        · refine ⟨le_refl _, ?_⟩
          intro k hk1 hk2
          have : k = j := le_antisymm hk2 hk1
          rw [this] at hk1 ⊢
          simpa using hflag
        · obtain ⟨h1, h2⟩ := ultraLoadGo_extract_bound fs flag n rest (i + 1) acc' j hj'
          refine ⟨by omega, ?_⟩
          intro k hk1 hk2
          by_cases hki : k = i
          · rw [hki]
            simpa using hflag
          · exact h2 k (by omega) hk2
      cases hm : (fs p).meta with
      | none =>
        apply hstep acc
        simpa [ultraLoadGo, hflag, hm] using hj
      | some dcm =>
        apply hstep
        simpa [ultraLoadGo, hflag, hm] using hj

/-- One callback block contains no probe events. -/
theorem cbTrace_filter_probe (flag : Nat → Bool) (r : Nat) (pc : ℚ) (st : String) :
    (cbTrace flag r pc st).filter SEvent.isProbe = [] := by
  cases h : flag r <;> simp [cbTrace, h, SEvent.isProbe]

/-- The completion block contains no probe events. -/
theorem finishTrace_filter_probe (flag : Nat → Bool) (r : Nat) (files : List Path) :
    (finishTrace flag r files).filter SEvent.isProbe = [] := by
  cases h : flag r <;> simp [finishTrace, h, SEvent.isProbe]

/-- The batch loop probes exactly the concatenation of its batches, in
order, whatever the stop flag does. -/
theorem scanLoopTrace_probes (fs : FS) (flag : Nat → Bool) (total : Nat) :
    ∀ (batches : List (List Path)) (found : List Path) (processed r : Nat),
      (scanLoopTrace fs flag total batches found processed r).2.2.filter SEvent.isProbe
        = batches.join.map SEvent.probe
  | [], found, processed, r => by simp [scanLoopTrace]
  | batch :: rest, found, processed, r => by
    have ih := scanLoopTrace_probes fs flag total rest
      (found ++ batch.filter (fun p => is_dicom_file_ultrafast fs p))
      (processed + batch.length) (r + 1)
    simp only [scanLoopTrace, List.filter_append, ih, cbTrace_filter_probe,
      List.join_cons, List.map_append, List.append_nil]
    congr 1
    induction batch with
    | nil => rfl
    | cons x xs ihx => simp [SEvent.isProbe, ihx]

/-- With the stop flag set, one callback block enqueues nothing. -/
theorem cbTrace_true_noenq (r : Nat) (pc : ℚ) (st : String) :
    (cbTrace (fun _ => true) r pc st).filter SEvent.isEnq = [] := by
  simp [cbTrace, SEvent.isEnq]

/-- With the stop flag set, the batch loop enqueues nothing. -/
theorem scanLoopTrace_true_noenq (fs : FS) (total : Nat) :
    ∀ (batches : List (List Path)) (found : List Path) (processed r : Nat),
      (scanLoopTrace fs (fun _ => true) total batches found processed r).2.2.filter
        SEvent.isEnq = []
  | [], found, processed, r => by simp [scanLoopTrace]
  | batch :: rest, found, processed, r => by
    have ih := scanLoopTrace_true_noenq fs total rest
      (found ++ batch.filter (fun p => is_dicom_file_ultrafast fs p))
      (processed + batch.length) (r + 1)
    simp only [scanLoopTrace, List.filter_append, ih, cbTrace_true_noenq,
      List.append_nil, List.nil_append]
    induction batch with
    | nil => rfl
    | cons x xs ihx => simp [SEvent.isEnq, ihx]

/-- Claim C1 counterexample: with the stop flag already true, the scan
worker's trace on a two-candidate folder still probes the second
candidate after the flag was observed true (event 0 is a true flag read
by `progress_update`; event 3 starts the second one-element batch) —
`scan_folder_ultrafast` never consults the flag between batches, so the
scan half of the claim is false at this input. -/
theorem C1_counterexample :
    ultra_scan_workerTrace (fun _ => {}) (fun _ => true)
        (.ok [⟨"x1", ""⟩, ⟨"x2", ""⟩])
      = [SEvent.flagRead true, SEvent.probe ⟨"x1", ""⟩, SEvent.flagRead true,
         SEvent.probe ⟨"x2", ""⟩, SEvent.flagRead true, SEvent.flagRead true]
    ∧ (ultra_scan_workerTrace (fun _ => {}) (fun _ => true)
        (.ok [⟨"x1", ""⟩, ⟨"x2", ""⟩])).get? 0 = some (SEvent.flagRead true)
    ∧ (ultra_scan_workerTrace (fun _ => {}) (fun _ => true)
        (.ok [⟨"x1", ""⟩, ⟨"x2", ""⟩])).get? 3 = some (SEvent.probe ⟨"x2", ""⟩) := by
  refine ⟨by decide, by decide, by decide⟩

/-- Claim C1 (amended): once the cooperative stop flag is observed true,
the load worker starts extracting metadata for no further path (every
extraction index precedes every true flag read); the scan worker,
however, keeps probing every uncertain candidate — the probe sequence is
exactly the candidate list for every behavior of the flag, so
cancellation does not prevent new scan batches — and with the flag set
the scan worker enqueues no message. -/
theorem C1_cancellation :
    (∀ (fs : FS) (flag : Nat → Bool) (files : List Path) (i : Nat),
      flag i = true → ∀ j ∈ loadExtractions fs flag files, j < i)
    ∧ (∀ (fs : FS) (flag : Nat → Bool) (all_files : List Path),
        (ultra_scan_workerTrace fs flag (.ok all_files)).filter SEvent.isProbe
          = ((scanPartition all_files).2).map SEvent.probe)
    ∧ (∀ (fs : FS) (listing : Except String (List Path)),
        (ultra_scan_workerTrace fs (fun _ => true) listing).filter SEvent.isEnq = []) := by
  refine ⟨?_, ?_, ?_⟩
  · intro fs flag files i hi j hj
    obtain ⟨-, h2⟩ := ultraLoadGo_extract_bound fs flag files.length files 0 [] j hj
    by_contra hlt
    have : flag i = false := h2 i (Nat.zero_le i) (by omega)
    rw [this] at hi
    exact Bool.noConfusion hi
  · intro fs flag all_files
    cases hempty : all_files with
    | nil =>
      simp [ultra_scan_workerTrace, finishTrace_filter_probe, scanPartition]
    | cons a l =>
      rcases hpart : scanPartition (a :: l) with ⟨defs, pots⟩
      rcases hloop : scanLoopTrace fs flag (defs.length + pots.length)
          (chunks (max 1 (pots.length / 50)) pots) defs defs.length 1 with ⟨found, r', tr⟩
      have htr : tr.filter SEvent.isProbe
          = (chunks (max 1 (pots.length / 50)) pots).join.map SEvent.probe := by
        have := scanLoopTrace_probes fs flag (defs.length + pots.length)
          (chunks (max 1 (pots.length / 50)) pots) defs defs.length 1
        rw [hloop] at this
        exact this
      simp only [ultra_scan_workerTrace, hpart, List.isEmpty_cons, Bool.false_eq_true,
        if_false, hloop, List.filter_append, cbTrace_filter_probe,
        finishTrace_filter_probe, htr, chunks_join, List.nil_append, List.append_nil]
  · intro fs listing
    cases listing with
    | error e =>
      simp [ultra_scan_workerTrace, cbTrace_true_noenq, finishTrace, SEvent.isEnq]
    | ok all_files =>
      by_cases hempty : all_files.isEmpty
      · simp [ultra_scan_workerTrace, hempty, finishTrace, SEvent.isEnq]
      · rcases hpart : scanPartition all_files with ⟨defs, pots⟩
        rcases hloop : scanLoopTrace fs (fun _ => true) (defs.length + pots.length)
            (chunks (max 1 (pots.length / 50)) pots) defs defs.length 1
          with ⟨found, r', tr⟩
        have htr : tr.filter SEvent.isEnq = [] := by
          have := scanLoopTrace_true_noenq fs (defs.length + pots.length)
            (chunks (max 1 (pots.length / 50)) pots) defs defs.length 1
          rw [hloop] at this
          exact this
        simp only [ultra_scan_workerTrace, hpart, hempty, Bool.false_eq_true, if_false,
          hloop, List.filter_append, cbTrace_true_noenq, htr, finishTrace,
          List.nil_append, List.append_nil]
        simp [SEvent.isEnq]

/-- Claim C1 witness: with the flag turning true at read 1, the sole
extraction of a two-file load has index 0 (hence precedes the true read);
a two-candidate scan with the flag set still probes both candidates and
enqueues nothing. -/
theorem C1_cancellation_witness :
    (0 : ℕ) < 1
    ∧ (ultra_scan_workerTrace (fun _ => {}) (fun _ => true)
        (.ok [⟨"x1", ""⟩, ⟨"x2", ""⟩])).filter SEvent.isProbe
      = ((scanPartition [⟨"x1", ""⟩, ⟨"x2", ""⟩]).2).map SEvent.probe
    ∧ (ultra_scan_workerTrace (fun _ => {}) (fun _ => true)
        (.ok [⟨"x1", ""⟩, ⟨"x2", ""⟩])).filter SEvent.isEnq = [] :=
  ⟨C1_cancellation.1 (fun _ => {}) (fun i => decide (1 ≤ i)) [⟨"f", ""⟩, ⟨"g", ""⟩] 1
      (by decide) 0 (by decide),
   C1_cancellation.2.1 (fun _ => {}) (fun _ => true) [⟨"x1", ""⟩, ⟨"x2", ""⟩],
   C1_cancellation.2.2 (fun _ => {}) (.ok [⟨"x1", ""⟩, ⟨"x2", ""⟩])⟩

end DicomApp
